import Mathlib

/-!
Verification of the aurora.js client library against its specification.

The development shallowly embeds the code of `src/lib/key_store.js` and the
`Engine` class of `src/lib/block.d.ts` (key rotation, call translation,
error classification, gas accounting, and state demultiplexing) as
executable Lean definitions, and proves the specified properties about
them.  External collaborators (the NEAR RPC client, base64/base58 codecs,
Borsh decoding) are modelled as parameters or identity maps on bytes.
-/

/-- Result type mirroring the `Result` of the hqoss monads package used by
the source (`Ok`/`Err`). -/
inductive Result (T E : Type) where
  | Ok (val : T)
  | Err (err : E)
deriving Repr, DecidableEq

/-- JavaScript `Map.set` on an association list: replace the value of an
existing key in place (keeping its insertion position), otherwise append
the new entry at the end. -/
def mapSet {α β : Type} [DecidableEq α] : List (α × β) → α → β → List (α × β)
  | [], k, v => [(k, v)]
  | (k0, v0) :: rest, k, v =>
    if k0 = k then (k, v) :: rest else (k0, v0) :: mapSet rest k v

/-- `InMemoryMultiKeyStore` from `src/lib/key_store.js`: a network-bound
store holding, per account, a JavaScript `Set` of key pairs (modelled as a
list in insertion order, the stable enumeration order of a JS `Set`),
together with the rotation counter.  Key pairs are opaque to the store and
modelled as strings. -/
structure InMemoryMultiKeyStore where
  networkID : String
  reKeyCounter : Nat
  store : List (String × List String)
deriving Repr, DecidableEq

/-- `this.store.get(accountID) || new Set()`: the pool registered for an
account, or the empty pool. -/
def InMemoryMultiKeyStore.poolOf (s : InMemoryMultiKeyStore) (accountID : String) :
    List String :=
  match s.store.lookup accountID with
  | some keyPairs => keyPairs
  | none => []

/-- `reKey()`: increments the rotation counter and does nothing else. -/
def InMemoryMultiKeyStore.reKey (s : InMemoryMultiKeyStore) : InMemoryMultiKeyStore :=
  { s with reKeyCounter := s.reKeyCounter + 1 }

/-- `setKey(networkID, accountID, keyPair)`: no-op on a network mismatch,
otherwise adds the key pair to the account's pool (JS `Set.add`: append if
not already a member) and writes the pool back with `Map.set`. -/
def InMemoryMultiKeyStore.setKey (s : InMemoryMultiKeyStore)
    (networkID accountID keyPair : String) : InMemoryMultiKeyStore :=
  if networkID ≠ s.networkID then s
  else
    let keyPairs := s.poolOf accountID
    let keyPairs := if keyPair ∈ keyPairs then keyPairs else keyPairs ++ [keyPair]
    { s with store := mapSet s.store accountID keyPairs }

/-- `getKey(networkID, accountID)`: `undefined` on a network mismatch or an
empty/absent pool, otherwise the pool member at index
`reKeyCounter % keyPairs.size` of the `Set` enumeration. -/
def InMemoryMultiKeyStore.getKey (s : InMemoryMultiKeyStore)
    (networkID accountID : String) : Option String :=
  if networkID ≠ s.networkID then none
  else
    let keyPairs := s.poolOf accountID
    if keyPairs.length = 0 then none
    else keyPairs[s.reKeyCounter % keyPairs.length]?

/-- `removeKey(networkID, accountID)`: no-op on a network mismatch,
otherwise `Map.delete` of the account's whole pool. -/
def InMemoryMultiKeyStore.removeKey (s : InMemoryMultiKeyStore)
    (networkID accountID : String) : InMemoryMultiKeyStore :=
  if networkID ≠ s.networkID then s
  else { s with store := s.store.eraseP (fun p => p.1 == accountID) }

/-- `clear()`: `Map.clear` of the whole store.  Note that the source's
`clear` takes no network argument. -/
def InMemoryMultiKeyStore.clear (s : InMemoryMultiKeyStore) : InMemoryMultiKeyStore :=
  { s with store := [] }

/-- `getAccounts(networkID)`: `[]` on a network mismatch, otherwise the
keys of the store map in insertion order. -/
def InMemoryMultiKeyStore.getAccounts (s : InMemoryMultiKeyStore)
    (networkID : String) : List String :=
  if networkID ≠ s.networkID then [] else s.store.map Prod.fst

theorem iterate_reKey (n : Nat) (s : InMemoryMultiKeyStore) :
    InMemoryMultiKeyStore.reKey^[n] s =
      { s with reKeyCounter := s.reKeyCounter + n } := by
  induction n generalizing s with
  | zero => rfl
  | succ n ih =>
    rw [Function.iterate_succ_apply, ih]
    have h : s.reKeyCounter + 1 + n = s.reKeyCounter + (n + 1) := by omega
    simp [InMemoryMultiKeyStore.reKey, h]

theorem upd_networkID (s : InMemoryMultiKeyStore) (n : Nat) :
    ({ s with reKeyCounter := n } : InMemoryMultiKeyStore).networkID = s.networkID := rfl

theorem upd_poolOf (s : InMemoryMultiKeyStore) (n : Nat) (acct : String) :
    ({ s with reKeyCounter := n } : InMemoryMultiKeyStore).poolOf acct =
      s.poolOf acct := rfl

theorem upd_counter (s : InMemoryMultiKeyStore) (n : Nat) :
    ({ s with reKeyCounter := n } : InMemoryMultiKeyStore).reKeyCounter = n := rfl

/-- C1: `getKey` returns `None` whenever the pool is empty or absent or the
network mismatches; otherwise it returns the pool member at index
`reKeyCounter mod poolSize` in the stable enumeration order; and for a pool
of `k ≥ 1` distinct keys, `k` consecutive `reKey` calls each followed by
`getKey` cycle through all `k` keys before repeating (the `k` results are a
permutation of the pool). -/
theorem getKey_rotation_spec (s : InMemoryMultiKeyStore) (net acct : String) :
    ((net ≠ s.networkID ∨ s.poolOf acct = []) → s.getKey net acct = none)
    ∧ (net = s.networkID → s.poolOf acct ≠ [] →
        s.getKey net acct =
          (s.poolOf acct)[s.reKeyCounter % (s.poolOf acct).length]?)
    ∧ (net = s.networkID → (s.poolOf acct).Nodup →
        ((List.range (s.poolOf acct).length).map
            (fun i => (InMemoryMultiKeyStore.reKey^[i + 1] s).getKey net acct)).Perm
          ((s.poolOf acct).map some)) := by
  refine ⟨?_, ?_, ?_⟩
  · rintro (hnet | hpool)
    · simp [InMemoryMultiKeyStore.getKey, hnet]
    · simp [InMemoryMultiKeyStore.getKey, hpool]
  · intro hnet hpool
    simp [InMemoryMultiKeyStore.getKey, hnet, List.length_eq_zero.not.mpr hpool]
  · intro hnet hnodup
    set p := s.poolOf acct with hp
    set k := p.length with hk
    set c := s.reKeyCounter with hc
    have hgk : ∀ i : Nat, i < k →
        (InMemoryMultiKeyStore.reKey^[i + 1] s).getKey net acct =
          p[(c + (i + 1)) % k]? := by
      intro i hi
      have hklen : ¬ (k = 0) := by omega
      rw [iterate_reKey]
      simp only [InMemoryMultiKeyStore.getKey, upd_networkID, upd_poolOf,
        upd_counter, hnet, ne_eq, not_true_eq_false, if_false, ← hp, ← hk, ← hc]
      rw [if_neg hklen]
    have hidx : ∀ i : Nat, i < k → (c + (i + 1)) % k < k := fun i hi =>
      Nat.mod_lt _ (by omega)
    have hmap :
        ((List.range k).map
            (fun i => (InMemoryMultiKeyStore.reKey^[i + 1] s).getKey net acct)) =
          (List.range k).map (fun i => p[(c + (i + 1)) % k]?) := by
      apply List.map_congr_left
      intro i hi
      exact hgk i (List.mem_range.mp hi)
    rw [hmap]
    have hlen : ((List.range k).map (fun i => p[(c + (i + 1)) % k]?)).length =
        (p.map some).length := by simp [hk]
    apply List.Subperm.perm_of_length_le _ (le_of_eq hlen.symm)
    apply List.Nodup.subperm
    · apply List.Nodup.map_on _ (List.nodup_range k)
      intro i hi j hj hij
      have hi' := List.mem_range.mp hi
      have hj' := List.mem_range.mp hj
      rw [List.getElem?_eq_getElem (hidx i hi'), List.getElem?_eq_getElem (hidx j hj')]
        at hij
      have heq : (c + (i + 1)) % k = (c + (j + 1)) % k :=
        (hnodup.getElem_inj_iff).mp (Option.some_injective _ hij)
      have hmodeq : Nat.ModEq k ((c + 1) + i) ((c + 1) + j) := by
        have e1 : (c + 1) + i = c + (i + 1) := by omega
        have e2 : (c + 1) + j = c + (j + 1) := by omega
        rw [e1, e2]
        exact heq
      have := Nat.ModEq.add_left_cancel' (c + 1) hmodeq
      have : i % k = j % k := this
      rwa [Nat.mod_eq_of_lt hi', Nat.mod_eq_of_lt hj'] at this
    · intro x hx
      rcases List.mem_map.mp hx with ⟨i, hi, hxi⟩
      have hi' := List.mem_range.mp hi
      rw [List.getElem?_eq_getElem (hidx i hi')] at hxi
      exact hxi ▸ List.mem_map_of_mem some (List.getElem_mem _)

/-- Concrete witness for `getKey_rotation_spec`: a store bound to network
`testnet` holding two keys for account `alice`; the two rotated lookups
enumerate both keys. -/
theorem getKey_rotation_spec_witness :
    ("testnet" = (InMemoryMultiKeyStore.mk "testnet" 0
        [("alice", ["k1", "k2"])]).networkID)
    ∧ ((InMemoryMultiKeyStore.mk "testnet" 0
        [("alice", ["k1", "k2"])]).poolOf "alice").Nodup
    ∧ ((List.range ((InMemoryMultiKeyStore.mk "testnet" 0
          [("alice", ["k1", "k2"])]).poolOf "alice").length).map
        (fun i => (InMemoryMultiKeyStore.reKey^[i + 1]
            (InMemoryMultiKeyStore.mk "testnet" 0
              [("alice", ["k1", "k2"])])).getKey "testnet" "alice")).Perm
      (((InMemoryMultiKeyStore.mk "testnet" 0
          [("alice", ["k1", "k2"])]).poolOf "alice").map some) :=
  ⟨rfl, by decide,
    (getKey_rotation_spec (InMemoryMultiKeyStore.mk "testnet" 0
      [("alice", ["k1", "k2"])]) "testnet" "alice").2.2 rfl (by decide)⟩

/-- C5 counterexample: the claim extends the mismatched-network no-op
guarantee to `clear`, but `clear` takes no network argument and
unconditionally empties the pool mapping: on a store holding one key it
does not leave the pool mapping unchanged. -/
theorem clear_not_network_scoped :
    (InMemoryMultiKeyStore.clear
        (InMemoryMultiKeyStore.mk "testnet" 0 [("alice", ["k1"])])).store ≠
      (InMemoryMultiKeyStore.mk "testnet" 0 [("alice", ["k1"])]).store := by
  decide

/-- C5 (amended): `setKey`, `removeKey`, `getKey` and `getAccounts` with a
mismatched network are silent no-ops (no store change, no error), so a pool
never stores keys for a network other than its own; `clear`, however, takes
no network argument and unconditionally empties the pool mapping. -/
theorem mismatched_network_noop (s : InMemoryMultiKeyStore)
    (M acct keyPair : String) :
    (M ≠ s.networkID →
      s.setKey M acct keyPair = s
      ∧ s.removeKey M acct = s
      ∧ s.getKey M acct = none
      ∧ s.getAccounts M = [])
    ∧ s.clear.store = [] := by
  constructor
  · intro hM
    refine ⟨?_, ?_, ?_, ?_⟩
    · simp [InMemoryMultiKeyStore.setKey, hM]
    · simp [InMemoryMultiKeyStore.removeKey, hM]
    · simp [InMemoryMultiKeyStore.getKey, hM]
    · simp [InMemoryMultiKeyStore.getAccounts, hM]
  · rfl

/-- Concrete witness for `mismatched_network_noop` at a mainnet query
against a testnet-bound store. -/
theorem mismatched_network_noop_witness :
    ("mainnet" ≠ (InMemoryMultiKeyStore.mk "testnet" 3
        [("alice", ["k1"])]).networkID)
    ∧ ((InMemoryMultiKeyStore.mk "testnet" 3 [("alice", ["k1"])]).setKey
          "mainnet" "bob" "k9" =
        InMemoryMultiKeyStore.mk "testnet" 3 [("alice", ["k1"])]
      ∧ (InMemoryMultiKeyStore.mk "testnet" 3 [("alice", ["k1"])]).removeKey
          "mainnet" "bob" =
        InMemoryMultiKeyStore.mk "testnet" 3 [("alice", ["k1"])]
      ∧ (InMemoryMultiKeyStore.mk "testnet" 3 [("alice", ["k1"])]).getKey
          "mainnet" "bob" = none
      ∧ (InMemoryMultiKeyStore.mk "testnet" 3 [("alice", ["k1"])]).getAccounts
          "mainnet" = []) :=
  ⟨by decide,
    (mismatched_network_noop (InMemoryMultiKeyStore.mk "testnet" 3
      [("alice", ["k1"])]) "mainnet" "bob" "k9").1 (by decide)⟩

/-- JavaScript `Set` construction over a list: keeps the first occurrence
of each element, in encounter order (the accumulator holds the elements
already seen). -/
def jsSetDedupAux (seen : List String) : List String → List String
  | [] => []
  | a :: l => if a ∈ seen then jsSetDedupAux seen l else a :: jsSetDedupAux (a :: seen) l

def jsSetDedup (l : List String) : List String := jsSetDedupAux [] l

theorem mem_jsSetDedupAux (l : List String) :
    ∀ (seen : List String) (x : String),
    x ∈ jsSetDedupAux seen l ↔ x ∈ l ∧ x ∉ seen := by
  induction l with
  | nil => intro seen x; simp [jsSetDedupAux]
  | cons a l ih =>
    intro seen x
    by_cases ha : a ∈ seen <;> by_cases hxa : x = a <;>
      simp [jsSetDedupAux, ha, ih, hxa]

theorem nodup_jsSetDedupAux (l : List String) :
    ∀ seen : List String, (jsSetDedupAux seen l).Nodup := by
  induction l with
  | nil => intro seen; simp [jsSetDedupAux]
  | cons a l ih =>
    intro seen
    by_cases ha : a ∈ seen
    · simpa [jsSetDedupAux, ha] using ih seen
    · rw [jsSetDedupAux, if_neg ha]
      refine List.nodup_cons.mpr ⟨?_, ih _⟩
      intro hmem
      exact ((mem_jsSetDedupAux l _ a).mp hmem).2 (List.mem_cons_self a seen)

/-- The merged `KeyStore` of `src/lib/key_store.js`: a bound network and an
ordered list of constituent key sources, each source giving its account
list per network. -/
structure KeyStore where
  networkID : String
  sources : List (String → List String)

/-- Modelled from the spec: `super.getAccounts(networkID)` is the
near-api-js merge store's account listing, an external collaborator (§6)
that unions — concatenates — the account lists of every source for the
requested network. -/
def mergeGetAccounts (ks : KeyStore) (networkID : String) : List String :=
  (ks.sources.map (fun src => src networkID)).flatten

/-- `KeyStore.getAccounts`: the merged account list for the bound network,
deduplicated with a JS `Set` (first occurrence kept) and sorted with JS
`Array.sort` (ascending lexical order). -/
def KeyStore.getAccounts (ks : KeyStore) : List String :=
  (jsSetDedup (mergeGetAccounts ks ks.networkID)).mergeSort (fun a b => a ≤ b)

/-- C8: the merged `getAccounts()` returns the union of all constituent
sources' accounts for the bound network, with duplicates removed, in
ascending lexical order. -/
theorem getAccounts_merge_spec (ks : KeyStore) :
    (∀ a, a ∈ ks.getAccounts ↔ ∃ src ∈ ks.sources, a ∈ src ks.networkID)
    ∧ ks.getAccounts.Sorted (· ≤ ·)
    ∧ ks.getAccounts.Nodup := by
  refine ⟨?_, ?_, ?_⟩
  · intro a
    simp [KeyStore.getAccounts, jsSetDedup, mem_jsSetDedupAux, mergeGetAccounts,
      List.mem_flatten]
  · exact List.sorted_mergeSort' _
  · exact ((List.mergeSort_perm _ _).nodup_iff).mpr (nodup_jsSetDedupAux _ _)

/-- One execution outcome of the NEAR `txStatus` response, carrying its
consumed gas. -/
structure ExecutionOutcome where
  gas_burnt : Nat
deriving Repr, DecidableEq

structure ReceiptOutcome where
  outcome : ExecutionOutcome
deriving Repr, DecidableEq

/-- The part of the NEAR `txStatus` response read by the gas accountant:
the induced receipts' outcomes and the top-level transaction outcome. -/
structure TxStatusResponse where
  receipts_outcome : List ReceiptOutcome
  transaction_outcome : ReceiptOutcome
deriving Repr, DecidableEq

/-- `Engine.transactionGasBurned`: sums `gas_burnt` over all induced
receipts' outcomes plus the top-level transaction outcome.  The provider's
`txStatus` primitive is a parameter returning `none` where the original
throws (network error, unknown reference); an `undefined` reference makes
`base58ToBytes` throw before the query.  Every failure is caught and
degrades the total to `0`. -/
def transactionGasBurned (txStatus : String → Option TxStatusResponse) :
    Option String → Nat
  | none => 0
  | some id =>
    match txStatus id with
    | none => 0
    | some status =>
      status.receipts_outcome.foldl (fun sum value => sum + value.outcome.gas_burnt) 0
        + status.transaction_outcome.outcome.gas_burnt

theorem foldl_add_gas (l : List ReceiptOutcome) (n : Nat) :
    l.foldl (fun sum value => sum + value.outcome.gas_burnt) n
      = n + (l.map (fun v => v.outcome.gas_burnt)).sum := by
  induction l generalizing n with
  | nil => simp
  | cons a l ih => simp [ih, Nat.add_assoc]

/-- C4: with a known transaction reference whose status query succeeds, the
gas-burned total is the sum of `gas_burnt` over all induced receipts'
outcomes plus the top-level transaction outcome's `gas_burnt`; whenever the
status query fails — including a missing reference — the total is exactly
`0`, and the failure never propagates (the accountant is a total
function). -/
theorem transactionGasBurned_spec (txStatus : String → Option TxStatusResponse)
    (id : String) :
    (∀ status, txStatus id = some status →
      transactionGasBurned txStatus (some id) =
        (status.receipts_outcome.map (fun v => v.outcome.gas_burnt)).sum
          + status.transaction_outcome.outcome.gas_burnt)
    ∧ (txStatus id = none → transactionGasBurned txStatus (some id) = 0)
    ∧ transactionGasBurned txStatus none = 0 := by
  refine ⟨?_, ?_, rfl⟩
  · intro status h
    simp [transactionGasBurned, h, foldl_add_gas]
  · intro h
    simp [transactionGasBurned, h]

/-- A `txStatus` provider answering only the reference `tx`, with receipts
burning 10 and 20 gas and the top-level transaction burning 5. -/
def txStatusExample : String → Option TxStatusResponse := fun id =>
  if id = "tx" then some ⟨[⟨⟨10⟩⟩, ⟨⟨20⟩⟩], ⟨⟨5⟩⟩⟩ else none

/-- Concrete witness for `transactionGasBurned_spec`: receipts burning 10
and 20 plus a top-level 5 give 35; a failing query gives 0. -/
theorem transactionGasBurned_spec_witness :
    transactionGasBurned txStatusExample (some "tx") = 35
    ∧ transactionGasBurned txStatusExample (some "missing") = 0 := by
  constructor
  · rw [(transactionGasBurned_spec txStatusExample "tx").1 ⟨[⟨⟨10⟩⟩, ⟨⟨20⟩⟩], ⟨⟨5⟩⟩⟩
      (by decide)]
    decide
  · exact (transactionGasBurned_spec txStatusExample "missing").2.1 (by decide)

/-- The shape of `result.status` in a settled mutating call: either an
object with a string `SuccessValue`, or anything else (a failure object, a
non-object tag, a non-string value…). -/
inductive FinalStatus where
  | successValue (value : String)
  | noSuccessValue
deriving Repr, DecidableEq

/-- The part of the NEAR `FinalExecutionOutcome` read when a mutating call
settles without raising: its status, the transaction hash, the optional
`transaction_outcome.id` reference, and its JS string representation
(`result.toString()`). -/
structure FinalExecutionOutcome where
  status : FinalStatus
  transactionHash : String
  transactionOutcomeId : Option String
  stringRepr : String
deriving Repr, DecidableEq

/-- `TransactionOutcome` from `src/lib/block.d.ts`. -/
structure TransactionOutcome where
  id : String
  output : List Nat
  tx : Option String
  gasBurned : Option Nat
deriving Repr, DecidableEq

/-- The settlement handling of `callMutativeFunction`: `result.status` must
be an object with a string `SuccessValue` to yield `Ok` (with the
base64-decoded output, the transaction reference and the gas-burned
total); any other status shape returns `Err(result.toString())`.  The
base64 codec is an external collaborator passed as a parameter. -/
def callMutativeResult (txStatus : String → Option TxStatusResponse)
    (base64decode : String → List Nat)
    (result : FinalExecutionOutcome) : Result TransactionOutcome String :=
  match result.status with
  | FinalStatus.successValue value =>
    Result.Ok
      { id := result.transactionHash
        output := base64decode value
        tx := result.transactionOutcomeId
        gasBurned := some (transactionGasBurned txStatus result.transactionOutcomeId) }
  | FinalStatus.noSuccessValue => Result.Err result.stringRepr

/-- C9: a mutating call whose backend response raises no exception but
lacks a recognizable success value returns an `Err` whose message equals
the backend response's string representation. -/
theorem no_success_value_err (txStatus : String → Option TxStatusResponse)
    (base64decode : String → List Nat) (hash : String) (txid : Option String)
    (stringRepr : String) :
    callMutativeResult txStatus base64decode
        ⟨FinalStatus.noSuccessValue, hash, txid, stringRepr⟩
      = Result.Err stringRepr := rfl

/-- A NEAR block selector as the source receives it: a JS
`number | string` (height, hash, or tag). -/
inductive BlockID where
  | num (n : Nat)
  | str (s : String)
deriving Repr, DecidableEq

/-- `ViewOptions` from `src/lib/block.d.ts`: an optional block selector. -/
structure ViewOptions where
  block : Option BlockID
deriving Repr, DecidableEq

/-- The `Engine` identity data used by the pure query construction; the
connection handles (`near`, `keyStore`, `signer`) are external
collaborators. -/
structure Engine where
  networkID : String
  contractID : String
deriving Repr, DecidableEq

/-- `Engine.prepareInput`: `undefined` becomes an empty buffer and byte
arguments pass through (`Buffer.from`); the hex-string overload delegates
to the external `parseHexString` and is not exercised by byte-payload
claims. -/
def prepareInput (args : Option (List Nat)) : List Nat :=
  match args with
  | none => []
  | some bytes => bytes

/-- The provider query built by `Engine.callFunction`.  `args_base64`
holds the argument bytes; their base64 encoding is an external bijective
codec. -/
structure QueryRequest where
  request_type : String
  account_id : String
  method_name : String
  args_base64 : List Nat
  finality : Option String
  block_id : Option BlockID
deriving Repr, DecidableEq

/-- `Engine.callFunction`: the single RPC query issued for a view call.
`finality` is `'final'` exactly when no block selector is supplied
(`options?.block` undefined or null), and `block_id` carries the selector
verbatim otherwise. -/
def Engine.callFunction (e : Engine) (methodName : String)
    (args : Option (List Nat)) (options : Option ViewOptions) : QueryRequest :=
  { request_type := "call_function"
    account_id := e.contractID
    method_name := methodName
    args_base64 := prepareInput args
    finality :=
      match options.bind ViewOptions.block with
      | none => some "final"
      | some _ => none
    block_id := options.bind ViewOptions.block }

/-- C6: a view call with no block selector queries finality `'final'` and
no block identifier; with a selector it queries that selector verbatim and
omits finality; exactly one of the two fields is ever sent; and omitted
argument bytes are sent as the empty byte string. -/
theorem callFunction_finality_spec (e : Engine) (methodName : String)
    (args : Option (List Nat)) (options : Option ViewOptions) :
    (options.bind ViewOptions.block = none →
      (e.callFunction methodName args options).finality = some "final"
      ∧ (e.callFunction methodName args options).block_id = none)
    ∧ (∀ b, options.bind ViewOptions.block = some b →
        (e.callFunction methodName args options).block_id = some b
        ∧ (e.callFunction methodName args options).finality = none)
    ∧ ((e.callFunction methodName args options).finality.isSome
        = !(e.callFunction methodName args options).block_id.isSome)
    ∧ (args = none → (e.callFunction methodName args options).args_base64 = []) := by
  refine ⟨?_, ?_, ?_, ?_⟩
  · intro h
    constructor <;> simp [Engine.callFunction, h]
  · intro b h
    constructor <;> simp [Engine.callFunction, h]
  · rcases h : options.bind ViewOptions.block with _ | b <;>
      simp [Engine.callFunction, h]
  · intro h
    simp [Engine.callFunction, prepareInput, h]

/-- Concrete witness for `callFunction_finality_spec`: a view call with no
options and no arguments queries finality `'final'`, no block identifier,
and empty argument bytes. -/
theorem callFunction_finality_spec_witness :
    ((Engine.mk "local" "aurora").callFunction "get_version" none none).finality
        = some "final"
    ∧ ((Engine.mk "local" "aurora").callFunction "get_version" none none).block_id
        = none
    ∧ ((Engine.mk "local" "aurora").callFunction "get_version" none none).args_base64
        = [] := by
  refine ⟨?_, ?_, ?_⟩
  · exact ((callFunction_finality_spec (Engine.mk "local" "aurora") "get_version"
      none none).1 rfl).1
  · exact ((callFunction_finality_spec (Engine.mk "local" "aurora") "get_version"
      none none).1 rfl).2
  · exact (callFunction_finality_spec (Engine.mk "local" "aurora") "get_version"
      none none).2.2.2 rfl

/-- JavaScript truthiness of a `number | string` block selector: `0` and
the empty string are falsy. -/
def jsTruthy : BlockID → Bool
  | BlockID.num n => n != 0
  | BlockID.str s => s != ""

/-- JavaScript `+ 1` on a `number | string` block selector: numeric
addition, or string concatenation of `'1'`. -/
def jsPlusOne : BlockID → BlockID
  | BlockID.num n => BlockID.num (n + 1)
  | BlockID.str s => BlockID.str (s ++ "1")

/-- `Engine.getCode`: when an options object is passed and its `block`
field is truthy, the field is overwritten in place with `block + 1` before
the view call.  The result pairs the issued query with the options object
as left after the call (modelling the in-place mutation). -/
def Engine.getCode (e : Engine) (address : List Nat)
    (options : Option ViewOptions) : QueryRequest × Option ViewOptions :=
  let options' :=
    match options with
    | some o =>
      match o.block with
      | some b => if jsTruthy b then some { block := some (jsPlusOne b) } else some o
      | none => some o
    | none => none
  (e.callFunction "get_code" (some address) options', options')

/-- C10 counterexample: at the numeric block height `0` (falsy in JS) the
claimed increment does not happen — the query goes out with selector `0`,
not `1`. -/
theorem getCode_zero_height_not_incremented :
    ((Engine.mk "local" "aurora").getCode []
        (some ⟨some (BlockID.num 0)⟩)).1.block_id
      ≠ some (BlockID.num 1) := by decide

/-- C10 (amended): for a positive numeric block height `h` the view call
is issued with block selector `h + 1` (finality omitted) and the caller's
options object is mutated to hold `h + 1`; height `0` is falsy and is
passed through unchanged. -/
theorem getCode_block_increment (e : Engine) (address : List Nat) (h : Nat) :
    (0 < h →
      (e.getCode address (some ⟨some (BlockID.num h)⟩)).1.block_id
          = some (BlockID.num (h + 1))
      ∧ (e.getCode address (some ⟨some (BlockID.num h)⟩)).1.finality = none
      ∧ (e.getCode address (some ⟨some (BlockID.num h)⟩)).2
          = some ⟨some (BlockID.num (h + 1))⟩)
    ∧ (e.getCode address (some ⟨some (BlockID.num 0)⟩)).1.block_id
        = some (BlockID.num 0) := by
  constructor
  · intro hp
    have ht : jsTruthy (BlockID.num h) = true := by
      simp [jsTruthy]
      omega
    refine ⟨?_, ?_, ?_⟩ <;>
      simp [Engine.getCode, Engine.callFunction, ht, jsPlusOne]
  · simp [Engine.getCode, Engine.callFunction, jsTruthy]

/-- Concrete witness for `getCode_block_increment` at height 1. -/
theorem getCode_block_increment_witness :
    ((Engine.mk "local" "aurora").getCode []
        (some ⟨some (BlockID.num 1)⟩)).1.block_id = some (BlockID.num 2)
    ∧ ((Engine.mk "local" "aurora").getCode []
        (some ⟨some (BlockID.num 1)⟩)).1.finality = none
    ∧ ((Engine.mk "local" "aurora").getCode []
        (some ⟨some (BlockID.num 1)⟩)).2 = some ⟨some (BlockID.num 2)⟩ :=
  (getCode_block_increment (Engine.mk "local" "aurora") [] 1).1 (by decide)

/-- The parsed raw transaction: only the gas limit is consulted by the
pre-checks. -/
structure RawTransaction where
  gasLimit : Nat
deriving Repr, DecidableEq

/-- `WrappedSubmitResult` from `src/lib/schema.js`: the decoded submit
result together with the gas-burned figure and the transaction
reference. -/
structure WrappedSubmitResult where
  submitResult : List Nat
  gasBurned : Option Nat
  tx : Option String
deriving Repr, DecidableEq

/-- `Engine.submit` on a byte payload: `prepareInput`, then the raw
transaction parse (the external ethersproject parser, a parameter
returning `none` where the original throws), then the intrinsic gas
pre-check against 21000, and only then the backend mutating call.
`decode` stands for the external Borsh `SubmitResult.decode`.  The second
component records the backend calls issued, as (method, args) pairs. -/
def submit (parse : List Nat → Option RawTransaction)
    (decode : List Nat → List Nat)
    (backend : List Nat → Result TransactionOutcome String)
    (input : List Nat) :
    Result WrappedSubmitResult String × List (String × List Nat) :=
  let inputBytes := prepareInput (some input)
  match parse inputBytes with
  | none => (Result.Err "ERR_INVALID_TX", [])
  | some rawTransaction =>
    if rawTransaction.gasLimit < 21000 then (Result.Err "ERR_INTRINSIC_GAS", [])
    else
      (match backend inputBytes with
        | Result.Ok o =>
          Result.Ok { submitResult := decode o.output, gasBurned := o.gasBurned, tx := o.tx }
        | Result.Err e => Result.Err e,
        [("submit", inputBytes)])

/-- C2: a payload that fails the raw-transaction parse yields
`Err ERR_INVALID_TX` with no backend call; one that parses with gas limit
below 21000 yields `Err ERR_INTRINSIC_GAS` with no backend call; only a
payload passing both checks is forwarded, as the single mutating call
`submit`. -/
theorem submit_prechecks (parse : List Nat → Option RawTransaction)
    (decode : List Nat → List Nat)
    (backend : List Nat → Result TransactionOutcome String) (input : List Nat) :
    (parse input = none →
      submit parse decode backend input = (Result.Err "ERR_INVALID_TX", []))
    ∧ (∀ rawTx, parse input = some rawTx → rawTx.gasLimit < 21000 →
        submit parse decode backend input = (Result.Err "ERR_INTRINSIC_GAS", []))
    ∧ (∀ rawTx, parse input = some rawTx → ¬ rawTx.gasLimit < 21000 →
        (submit parse decode backend input).2 = [("submit", input)]) := by
  refine ⟨?_, ?_, ?_⟩
  · intro h
    simp [submit, prepareInput, h]
  · intro rawTx h hgas
    simp [submit, prepareInput, h, hgas]
  · intro rawTx h hgas
    simp [submit, prepareInput, h, hgas]

/-- A parser sending the empty payload to a parse failure and a payload
headed by byte `g` to a transaction with gas limit `g * 1000`. -/
def parseExample : List Nat → Option RawTransaction := fun bytes =>
  match bytes with
  | [] => none
  | g :: _ => some ⟨g * 1000⟩

/-- A backend answering every call successfully. -/
def backendExample : List Nat → Result TransactionOutcome String := fun bytes =>
  Result.Ok ⟨"deadbeef", bytes, some "txref", some 5⟩

/-- Concrete witness for `submit_prechecks`: an unparseable payload, a
parsed transaction with gas limit 20000, and one with gas limit 21000. -/
theorem submit_prechecks_witness :
    submit parseExample id backendExample [] = (Result.Err "ERR_INVALID_TX", [])
    ∧ submit parseExample id backendExample [20] = (Result.Err "ERR_INTRINSIC_GAS", [])
    ∧ (submit parseExample id backendExample [21]).2 = [("submit", [21])] :=
  ⟨(submit_prechecks parseExample id backendExample []).1 rfl,
    (submit_prechecks parseExample id backendExample [20]).2.1 ⟨20000⟩ rfl (by decide),
    (submit_prechecks parseExample id backendExample [21]).2.2 ⟨21000⟩ rfl (by decide)⟩

/-- `TransactionErrorDetails` from `src/lib/block.d.ts`. -/
structure TransactionErrorDetails where
  tx : Option String
  gasBurned : Nat
deriving Repr, DecidableEq

/-- JavaScript `JSON.stringify` of a `TransactionErrorDetails`: an
`undefined` `tx` field is omitted entirely; `gasBurned` is always a
number. -/
def jsonStringifyDetails (details : TransactionErrorDetails) : String :=
  match details.tx with
  | some t =>
    "\x7b\"tx\":\"" ++ t ++ "\",\"gasBurned\":" ++ toString details.gasBurned ++ "\x7d"
  | none => "\x7b\"gasBurned\":" ++ toString details.gasBurned ++ "\x7d"

/-- `Engine.errorWithDetails`: the message and the serialized details
joined by a pipe. -/
def errorWithDetails (message : String) (details : TransactionErrorDetails) : String :=
  message ++ "|" ++ jsonStringifyDetails details

/-- Whether the first list is an initial segment of the second. -/
def leadsWith : List Char → List Char → Bool
  | [], _ => true
  | _ :: _, [] => false
  | p :: ps, c :: cs => p == c && leadsWith ps cs

/-- Removal of the first occurrence of `pat` (JavaScript
`String.replace(pat, '')` with a plain string pattern replaces only the
first occurrence, wherever it appears). -/
def removeFirst (pat : List Char) : List Char → List Char
  | [] => []
  | c :: cs =>
    if leadsWith pat (c :: cs) then (c :: cs).drop pat.length
    else c :: removeFirst pat cs

def jsReplaceFirst (s pat : String) : String :=
  String.mk (removeFirst pat.data s.data)

/-- The claim's reading of the message transformation: the panic marker is
stripped only when it is a leading marker of the text. -/
def stripLeadingMarker (s pat : String) : String :=
  if leadsWith pat.data s.data then String.mk (s.data.drop pat.data.length) else s

/-- A backend error caught by `callMutativeFunction`, discriminated by
`error.type`: a `FunctionCallError` carries `error.message`, the optional
`error.kind.ExecutionError` text and the optional
`error.transaction_outcome.id`; a `MethodNotFound` carries
`error.message`; anything else only its string representation
(`error.toString()`). -/
inductive NearTxError where
  | functionCallError (message : String) (executionError : Option String)
      (transactionOutcomeId : Option String)
  | methodNotFound (message : String)
  | otherError (stringRepr : String)
deriving Repr, DecidableEq

/-- The catch-classification of `callMutativeFunction`: a
`FunctionCallError` with a truthy `kind.ExecutionError` surfaces that text
with the first occurrence of `'Smart contract panicked: '` removed, joined
with details (transaction reference and gas burned, computed even on
failure); a `FunctionCallError` otherwise surfaces `error.message` with
the same details; `MethodNotFound` surfaces `error.message` verbatim with
no details; any other error surfaces its string representation. -/
def classifyMutativeError (txStatus : String → Option TxStatusResponse) :
    NearTxError → String
  | NearTxError.functionCallError message executionError transactionOutcomeId =>
    let details : TransactionErrorDetails :=
      { tx := transactionOutcomeId
        gasBurned := transactionGasBurned txStatus transactionOutcomeId }
    (match executionError with
      | some errorKind =>
        if errorKind ≠ "" then
          errorWithDetails (jsReplaceFirst errorKind "Smart contract panicked: ") details
        else errorWithDetails message details
      | none => errorWithDetails message details)
  | NearTxError.methodNotFound message => message
  | NearTxError.otherError stringRepr => stringRepr

/-- C7 counterexample: the source removes the first occurrence of
`'Smart contract panicked: '` anywhere in the `ExecutionError` text (JS
`String.replace`), not only a leading marker: on a text carrying the
marker mid-string, the returned message differs from the claim's
leading-marker-stripped text. -/
theorem executionError_not_marker_stripped :
    classifyMutativeError (fun _ => none)
        (NearTxError.functionCallError "msg"
          (some "ab Smart contract panicked: cd") none)
      ≠ errorWithDetails
          (stripLeadingMarker "ab Smart contract panicked: cd"
            "Smart contract panicked: ")
          { tx := none
            gasBurned := transactionGasBurned (fun _ => none) none } := by
  decide

/-- C7 (amended): a mutating call failing with a `FunctionCallError`
carrying a nonempty `ExecutionError` text returns the text with the first
occurrence of `'Smart contract panicked: '` removed (which strips it as a
leading marker whenever it only occurs there), combined with structured
details holding the transaction reference and the gas burned (computed
even on failure); `MethodNotFound` surfaces the backend message verbatim
with no details; any other error category surfaces its generic string
representation. -/
theorem classifyMutativeError_spec (txStatus : String → Option TxStatusResponse)
    (message errorKind : String) (txid : Option String) (m s : String) :
    (errorKind ≠ "" →
      classifyMutativeError txStatus
          (NearTxError.functionCallError message (some errorKind) txid)
        = errorWithDetails (jsReplaceFirst errorKind "Smart contract panicked: ")
            { tx := txid, gasBurned := transactionGasBurned txStatus txid })
    ∧ classifyMutativeError txStatus (NearTxError.methodNotFound m) = m
    ∧ classifyMutativeError txStatus (NearTxError.otherError s) = s := by
  refine ⟨?_, rfl, rfl⟩
  intro hk
  simp [classifyMutativeError, hk]

/-- Concrete witness for `classifyMutativeError_spec`: a panic message with
the leading marker, a method-not-found message, and a generic error. -/
theorem classifyMutativeError_spec_witness :
    classifyMutativeError txStatusExample
        (NearTxError.functionCallError "wrapped"
          (some "Smart contract panicked: ERR_OUT_OF_FUND") (some "tx"))
      = errorWithDetails
          (jsReplaceFirst "Smart contract panicked: ERR_OUT_OF_FUND"
            "Smart contract panicked: ")
          { tx := some "tx", gasBurned := transactionGasBurned txStatusExample (some "tx") }
    ∧ classifyMutativeError txStatusExample
        (NearTxError.methodNotFound "MethodNotFound") = "MethodNotFound"
    ∧ classifyMutativeError txStatusExample
        (NearTxError.otherError "ServerError") = "ServerError" :=
  ⟨(classifyMutativeError_spec txStatusExample "wrapped"
      "Smart contract panicked: ERR_OUT_OF_FUND" (some "tx") "" "").1 (by decide),
    (classifyMutativeError_spec txStatusExample "" "x" none "MethodNotFound" "").2.1,
    (classifyMutativeError_spec txStatusExample "" "x" none "" "ServerError").2.2⟩

/-- Big-endian unsigned integer interpretation of a byte buffer
(`toBigIntBE`). -/
def toBigIntBE (bytes : List Nat) : Nat :=
  bytes.foldl (fun acc b => acc * 256 + b) 0

def hexDigit (n : Nat) : Char :=
  if n < 10 then Char.ofNat (48 + n) else Char.ofNat (87 + n)

/-- Lowercase hex encoding of a byte buffer (`Buffer.toString('hex')`). -/
def hexEncode (bytes : List Nat) : String :=
  String.mk (bytes.foldr (fun b acc => hexDigit (b / 16) :: hexDigit (b % 16) :: acc) [])

/-- One key/value record of the full-state scan (`viewState`). -/
structure StateRecord where
  key : List Nat
  value : List Nat
deriving Repr, DecidableEq

/-- `AddressState` from `src/lib/block.d.ts`: per-address projection with
zero defaults, no code and empty storage.  The `address` field holds the
parsed address, modelled by its hex string; `storage` is the slot map in
insertion order. -/
structure AddressState where
  address : String
  nonce : Nat
  balance : Nat
  code : Option (List Nat)
  storage : List (Nat × Nat)
deriving Repr, DecidableEq

/-- The fresh `new AddressState(Address.parse(address).unwrap())`. -/
def freshAddressState (address : String) : AddressState :=
  { address := address, nonce := 0, balance := 0, code := none, storage := [] }

/-- In-place mutation of the state object of an existing key (the JS
pattern `result.get(address)` followed by a field assignment; keys are
unique in a JS `Map`). -/
def mapUpdate {α β : Type} [DecidableEq α] (m : List (α × β)) (k : α) (f : β → β) :
    List (α × β) :=
  m.map (fun p => if p.1 = k then (p.1, f p.2) else p)

/-- One iteration of the record loop in `Engine.getStorage`, translated
from the source: the key's first byte discriminates the record type (`0x0`
Config is skipped), the address bytes follow it (capped at 20 bytes for
`0x4` Storage records), a missing entry is created zeroed, and the switch
then mutates the entry's field. -/
def engineStep (result : List (String × AddressState)) (record : StateRecord) :
    List (String × AddressState) :=
  let record_type := record.key.head?
  if record_type = some 0 then result
  else
    let key := if record_type = some 4 then (record.key.drop 1).take 20
               else record.key.drop 1
    let address := hexEncode key
    let result1 :=
      if (result.lookup address).isSome then result
      else mapSet result address (freshAddressState address)
    match record_type with
    | some 1 => mapUpdate result1 address
        (fun st => { st with nonce := toBigIntBE record.value })
    | some 2 => mapUpdate result1 address
        (fun st => { st with balance := toBigIntBE record.value })
    | some 3 => mapUpdate result1 address
        (fun st => { st with code := some record.value })
    | some 4 => mapUpdate result1 address
        (fun st =>
          { st with
            storage := mapSet st.storage (toBigIntBE (record.key.drop 21))
              (toBigIntBE record.value) })
    | _ => result1

/-- `Engine.getStorage` over a record dump: the fold of the record loop
starting from the empty map, wrapped in `Ok`. -/
def getStorage (records : List StateRecord) :
    Result (List (String × AddressState)) String :=
  Result.Ok (records.foldl engineStep [])

/-- Presence-or-creation of an address entry, as the claim words it: the
first record seen for an address creates its entry with zero nonce, zero
balance, no code and empty storage, keyed by the lowercase hex-encoded
address; later records find the existing entry. -/
def ensureState (m : List (String × AddressState)) (address : String) :
    List (String × AddressState) :=
  if (m.lookup address).isSome then m else m ++ [(address, freshAddressState address)]

/-- The claim's description of the demultiplexer, one discriminator at a
time: Config skipped; Nonce/Balance decoded big-endian from the value into
the entry of the address spelled by the key bytes after the discriminator;
Code stored verbatim; Storage decoded big-endian into the slot map of the
address in key bytes 1 to 20, under the slot key of bytes 21 onward. -/
def specStep (m : List (String × AddressState)) (record : StateRecord) :
    List (String × AddressState) :=
  match record.key.head? with
  | some 0 => m
  | some 1 =>
    let address := hexEncode (record.key.drop 1)
    mapUpdate (ensureState m address) address
      (fun st => { st with nonce := toBigIntBE record.value })
  | some 2 =>
    let address := hexEncode (record.key.drop 1)
    mapUpdate (ensureState m address) address
      (fun st => { st with balance := toBigIntBE record.value })
  | some 3 =>
    let address := hexEncode (record.key.drop 1)
    mapUpdate (ensureState m address) address
      (fun st => { st with code := some record.value })
  | some 4 =>
    let address := hexEncode ((record.key.drop 1).take 20)
    mapUpdate (ensureState m address) address
      (fun st =>
        { st with
          storage := mapSet st.storage (toBigIntBE (record.key.drop 21))
            (toBigIntBE record.value) })
  | _ => m

def specGetStorage (records : List StateRecord) : List (String × AddressState) :=
  records.foldl specStep []

/-- Discriminator well-formedness: the record key leads with one of the
five documented discriminators. -/
def wellFormedRecord (record : StateRecord) : Bool :=
  match record.key.head? with
  | some d => d ≤ 4
  | none => false

theorem mapSet_eq_append {β : Type} (m : List (String × β)) (k : String) (v : β)
    (h : m.lookup k = none) : mapSet m k v = m ++ [(k, v)] := by
  induction m with
  | nil => rfl
  | cons p m ih =>
    obtain ⟨k0, v0⟩ := p
    by_cases hk : k0 = k
    · subst hk
      simp [List.lookup_cons] at h
    · have hbeq : (k == k0) = false := beq_false_of_ne (Ne.symm hk)
      simp only [List.lookup_cons, hbeq] at h
      rw [mapSet, if_neg hk, ih h]
      rfl

theorem create_eq_ensure (m : List (String × AddressState)) (address : String) :
    (if (m.lookup address).isSome then m
     else mapSet m address (freshAddressState address))
      = ensureState m address := by
  rw [ensureState]
  rcases h : m.lookup address with _ | v
  · simp [mapSet_eq_append m address _ h]
  · simp

theorem engineStep_eq_specStep (m : List (String × AddressState))
    (record : StateRecord) (h : wellFormedRecord record = true) :
    engineStep m record = specStep m record := by
  obtain ⟨key, value⟩ := record
  rcases key with _ | ⟨d, rest⟩
  · simp [wellFormedRecord] at h
  · simp only [wellFormedRecord, List.head?_cons, decide_eq_true_eq] at h
    interval_cases d <;>
      simp [engineStep, specStep, create_eq_ensure]

theorem foldl_engineStep_eq (records : List StateRecord) :
    ∀ m, (∀ r ∈ records, wellFormedRecord r = true) →
      records.foldl engineStep m = records.foldl specStep m := by
  induction records with
  | nil => intro m _; rfl
  | cons r records ih =>
    intro m h
    rw [List.foldl_cons, List.foldl_cons,
      engineStep_eq_specStep m r (h r (List.mem_cons_self r records))]
    exact ih _ (fun r' hr' => h r' (List.mem_cons_of_mem r hr'))

/-- C3: over a well-formed full-state record dump (every key leads with a
documented discriminator), `getStorage` builds exactly the per-address
projection the claim describes: Config records skipped, Nonce and Balance
values decoded as big-endian unsigned integers, Code bytes stored
verbatim, Storage slots decoded big-endian into the per-address slot map
under the slot key in key bytes 21 onward, with entries lazily created
zeroed under the lowercase hex-encoded address on first sight and mutated
in place afterwards. -/
theorem getStorage_demux (records : List StateRecord)
    (h : ∀ r ∈ records, wellFormedRecord r = true) :
    getStorage records = Result.Ok (specGetStorage records) := by
  rw [getStorage, specGetStorage, foldl_engineStep_eq records [] h]

/-- The 20-byte address `0xaaaa…aa` of the spec's demultiplexing
example. -/
def addrA : List Nat := List.replicate 20 170

/-- The spec's demultiplexing example: a nonce record (5), a balance
record (100) and a storage record (slot 1, value 7) for one address. -/
def demuxExample : List StateRecord :=
  [ { key := 1 :: addrA, value := [5] },
    { key := 2 :: addrA, value := [100] },
    { key := 4 :: (addrA ++ (List.replicate 31 0 ++ [1])), value := [7] } ]

/-- Concrete witness for `getStorage_demux`: the spec's example dump
yields exactly one Address State with nonce 5, balance 100, no code and
storage slot 1 holding 7. -/
theorem getStorage_demux_witness :
    (∀ r ∈ demuxExample, wellFormedRecord r = true)
    ∧ getStorage demuxExample = Result.Ok (specGetStorage demuxExample)
    ∧ specGetStorage demuxExample =
        [(hexEncode addrA,
          { address := hexEncode addrA, nonce := 5, balance := 100, code := none,
            storage := [(1, 7)] })] :=
  ⟨by decide, getStorage_demux demuxExample (by decide), by decide⟩
